import Mathlib

/-!
Verification development for the PolymarketDashboard repository
(`predictions.py`). The two core components identified by the design
document are embedded here:

* the Fetcher (`fetch_polymarket_data`, line 26-45): only its request
  `variables` construction (line 43) carries logic, embedded as
  `fetch_polymarket_data_variables`;
* the Shaper (`process_data`, line 48-67): embedded as `process_data`,
  built from the per-record comprehension body (`buildRow`), the
  comprehension itself (`buildRows`), and the two derived columns
  (`addDerived`);
* the empty-selection guard of `main` (line 99-101), embedded as the
  effect trace `main_effects`.

Python numeric values are modelled exactly as rationals: every numeric
string the spec exercises is a finite decimal, and the only arithmetic
performed on the parsed numbers (one addition per row) is exact.
Python exceptions are modelled by the `Except PyError` monad.
-/

/-- One entry of the `outcomes` array of a raw market record, as selected
by the GraphQL query (line 34-38): `price`, `totalVolumeYes`,
`totalVolumeNo`, each a string in the JSON payload. -/
structure Outcome where
  price : String
  totalVolumeYes : String
  totalVolumeNo : String
deriving Repr, DecidableEq

/-- A raw market record as returned by the endpoint, with exactly the
fields named in the GraphQL query (line 30-39). Numeric fields arrive as
strings and are parsed by the Shaper. -/
structure RawMarket where
  id : String
  question : String
  category : String
  volume : String
  outcomes : List Outcome
  endDate : String
deriving Repr, DecidableEq

/-- The Python exceptions `process_data` can raise: `ValueError` from
`float(...)` / `int(...)` on a malformed numeric string, `IndexError`
from `outcomes[0]` / `outcomes[1]` on a short outcome list, and
`KeyError` from a column lookup on the empty DataFrame (line 64). -/
inductive PyError where
  | valueError (msg : String)
  | indexError
  | keyError (key : String)
deriving Repr, DecidableEq

/-- Digit-string value: `some n` when the character list is a nonempty
run of decimal digits, else `none`. -/
def parseDigits (cs : List Char) : Option Nat :=
  if cs.isEmpty then none
  else if cs.all Char.isDigit then
    some (cs.foldl (fun a c => 10 * a + (c.toNat - 48)) 0)
  else none

/-- Unsigned decimal: digits with an optional decimal point, as accepted
by Python `float` (either side of the point may be empty but not both).
The value of digits `i` point digits `f` is the exact rational
`(i * 10 ^ |f| + f) / 10 ^ |f|`. -/
def parseUnsignedFloat (cs : List Char) : Option ℚ :=
  match cs.splitOn '.' with
  | [intPart] => (parseDigits intPart).map (fun n => mkRat n 1)
  | [intPart, fracPart] =>
    if intPart.isEmpty && fracPart.isEmpty then none
    else
      match (if intPart.isEmpty then some 0 else parseDigits intPart),
            (if fracPart.isEmpty then some 0 else parseDigits fracPart) with
      | some i, some f =>
        some (mkRat (i * 10 ^ fracPart.length + f) (10 ^ fracPart.length))
      | _, _ => none
  | _ => none

/-- Modelled Python `float(s)` on the decimal fragment the API uses:
optional leading minus sign, then digits with an optional decimal point.
Scientific notation, infinities and surrounding whitespace are outside
the payloads the spec describes and are modelled as unparseable.
`none` models a `ValueError`. -/
def parseFloat (s : String) : Option ℚ :=
  match s.data with
  | '-' :: rest => (parseUnsignedFloat rest).map (fun q => -q)
  | cs => parseUnsignedFloat cs

/-- Modelled Python `int(s)`: optional leading minus sign then decimal
digits. `none` models a `ValueError`. -/
def parseInt (s : String) : Option ℤ :=
  match s.data with
  | '-' :: rest => (parseDigits rest).map (fun n => -(n : ℤ))
  | cs => (parseDigits cs).map (fun n => (n : ℤ))

/-- A Python `datetime` value at the granularity the program uses: whole
days since the epoch plus a time of day. The further breakdown of `days`
into year/month/day is a bijection on days (the proleptic Gregorian
calendar) and is abstracted here; `days` determines the calendar date
uniquely, and `(end_date - now).dt.days` (line 65) only reads whole-day
differences. -/
structure PyDatetime where
  days : ℤ
  hour : ℤ
  minute : ℤ
  second : ℤ
deriving Repr, DecidableEq

/-- Modelled `datetime.fromtimestamp(n)` (line 59) for integer epoch
seconds `n`, at the granularity of `PyDatetime` (timezone fixed):
Euclidean division decomposes `n` into days, hours, minutes, seconds. -/
def datetime_fromtimestamp (n : ℤ) : PyDatetime :=
  let sod := n % 86400
  { days := n / 86400
    hour := sod / 3600
    minute := sod % 3600 / 60
    second := sod % 3600 % 60 }

/-- Modelled `datetime.timestamp`: epoch seconds of a `PyDatetime`. -/
def timestamp (d : PyDatetime) : ℤ :=
  d.days * 86400 + d.hour * 3600 + d.minute * 60 + d.second

/-- Python `float(s)` as an `Except` computation raising `ValueError`. -/
def pyFloat (s : String) : Except PyError ℚ :=
  match parseFloat s with
  | some q => Except.ok q
  | none => Except.error (PyError.valueError s)

/-- Python `int(s)` as an `Except` computation raising `ValueError`. -/
def pyInt (s : String) : Except PyError ℤ :=
  match parseInt s with
  | some n => Except.ok n
  | none => Except.error (PyError.valueError s)

/-- Python list indexing `xs[i]`, raising `IndexError` out of range. -/
def pyIndex (xs : List Outcome) (i : Nat) : Except PyError Outcome :=
  match xs[i]? with
  | some o => Except.ok o
  | none => Except.error PyError.indexError

/-- One row of the DataFrame built on line 49-62, before the derived
columns of line 64-65 are added. -/
structure BaseRow where
  id : String
  question : String
  category : String
  volume : ℚ
  yes_price : ℚ
  no_price : ℚ
  yes_volume : ℚ
  no_volume : ℚ
  end_date : PyDatetime
deriving Repr, DecidableEq

/-- A fully derived analytic row: the columns of line 49-62 plus
`total_volume` (line 64) and `days_to_end` (line 65). -/
structure AnalyticRow where
  id : String
  question : String
  category : String
  volume : ℚ
  yes_price : ℚ
  no_price : ℚ
  yes_volume : ℚ
  no_volume : ℚ
  end_date : PyDatetime
  total_volume : ℚ
  days_to_end : ℤ
deriving Repr, DecidableEq

/-- The dict literal of line 50-60, with its fields evaluated in source
order: `volume`, then `outcomes[0].price`, `outcomes[1].price`,
`outcomes[0].totalVolumeYes`, `outcomes[1].totalVolumeNo`, then
`int(endDate)`; the first failure raises, aborting the rest. -/
def buildRow (m : RawMarket) : Except PyError BaseRow :=
  match pyFloat m.volume with
  | Except.error e => Except.error e
  | Except.ok volume =>
    match pyIndex m.outcomes 0 with
    | Except.error e => Except.error e
    | Except.ok o0p =>
      match pyFloat o0p.price with
      | Except.error e => Except.error e
      | Except.ok yes_price =>
        match pyIndex m.outcomes 1 with
        | Except.error e => Except.error e
        | Except.ok o1p =>
          match pyFloat o1p.price with
          | Except.error e => Except.error e
          | Except.ok no_price =>
            match pyIndex m.outcomes 0 with
            | Except.error e => Except.error e
            | Except.ok o0v =>
              match pyFloat o0v.totalVolumeYes with
              | Except.error e => Except.error e
              | Except.ok yes_volume =>
                match pyIndex m.outcomes 1 with
                | Except.error e => Except.error e
                | Except.ok o1v =>
                  match pyFloat o1v.totalVolumeNo with
                  | Except.error e => Except.error e
                  | Except.ok no_volume =>
                    match pyInt m.endDate with
                    | Except.error e => Except.error e
                    | Except.ok endSecs =>
                      Except.ok
                        { id := m.id, question := m.question
                          category := m.category
                          volume := volume, yes_price := yes_price
                          no_price := no_price, yes_volume := yes_volume
                          no_volume := no_volume
                          end_date := datetime_fromtimestamp endSecs }

/-- The list comprehension of line 49-62: rows in input order, first
exception aborting the whole comprehension. -/
def buildRows : List RawMarket → Except PyError (List BaseRow)
  | [] => Except.ok []
  | m :: ms =>
    match buildRow m with
    | Except.error e => Except.error e
    | Except.ok b =>
      match buildRows ms with
      | Except.error e => Except.error e
      | Except.ok bs => Except.ok (b :: bs)

/-- The derived columns of line 64-65 applied to one row:
`total_volume = yes_volume + no_volume` and
`days_to_end = (end_date - now).dt.days`, the whole-day floor of the
difference in seconds. `now` is the single `datetime.now()` value of the
call, in epoch seconds. -/
def addDerived (now : ℤ) (b : BaseRow) : AnalyticRow :=
  { id := b.id, question := b.question, category := b.category
    volume := b.volume, yes_price := b.yes_price, no_price := b.no_price
    yes_volume := b.yes_volume, no_volume := b.no_volume
    end_date := b.end_date
    total_volume := b.yes_volume + b.no_volume
    days_to_end := (timestamp b.end_date - now) / 86400 }

/-- The Shaper `process_data` (line 48-67). Building the DataFrame from
the comprehension, then adding the two derived columns. On an empty
input the comprehension yields an empty DataFrame with no columns, and
the first column read of line 64, `df[yes_volume]`, raises `KeyError`. -/
def process_data (now : ℤ) (markets : List RawMarket) :
    Except PyError (List AnalyticRow) :=
  match buildRows markets with
  | Except.error e => Except.error e
  | Except.ok base =>
    if base.isEmpty then Except.error (PyError.keyError "yes_volume")
    else Except.ok (base.map (addDerived now))

/-- Line 43 of the Fetcher: the `variables` of the outbound request,
`\x7b"category": category\x7d if category != "All" else \x7b\x7d`. The
Python value `None` is `Option.none`; the dict is an association list. -/
def fetch_polymarket_data_variables (category : Option String) :
    List (String × Option String) :=
  if category ≠ some "All" then [("category", category)] else []

/-- The externally observable effects of one run of `main` that the
design document tracks: warnings shown to the user and calls to the
Fetcher. -/
inductive Effect where
  | warning (msg : String)
  | fetchCall (category : String)
deriving Repr, DecidableEq

/-- Whether an effect is a Fetcher call. -/
def Effect.isFetch : Effect → Bool
  | Effect.fetchCall _ => true
  | _ => false

/-- Whether an effect is a warning. -/
def Effect.isWarning : Effect → Bool
  | Effect.warning _ => true
  | _ => false

/-- The refresh loop of `main` (line 110-178) with its unbounded
iteration made explicit by a fuel bound: each cycle performs exactly one
Fetcher call (line 112), and the loop continues only when auto-refresh
is enabled (line 174-178). -/
def refreshLoop (category : String) (auto_refresh : Bool) : Nat → List Effect
  | 0 => []
  | n + 1 =>
    Effect.fetchCall category ::
      (if auto_refresh then refreshLoop category auto_refresh n else [])

/-- The warning and Fetcher-call trace of `main` (line 86-178): when the
selected category list is empty, line 99-101 emits one warning and
returns before any fetch; otherwise the refresh loop runs. -/
def main_effects (selected_categories : List String) (category : String)
    (auto_refresh : Bool) (fuel : Nat) : List Effect :=
  if selected_categories.isEmpty then
    [Effect.warning "Please select at least one category."]
  else refreshLoop category auto_refresh fuel

/-- Well-formedness of a raw record as the spec states it: exactly two
outcome entries, and every numeric field parses. -/
def WellFormed (m : RawMarket) : Prop :=
  m.outcomes.length = 2 ∧
  (parseFloat m.volume).isSome = true ∧
  (∀ o ∈ m.outcomes,
    (parseFloat o.price).isSome = true ∧
    (parseFloat o.totalVolumeYes).isSome = true ∧
    (parseFloat o.totalVolumeNo).isSome = true) ∧
  (parseInt m.endDate).isSome = true

instance (m : RawMarket) : Decidable (WellFormed m) := by
  unfold WellFormed; infer_instance

/-- The numeric fields `process_data` actually reads from a record all
parse: `volume`, `endDate`, and — for whichever of the first two outcome
entries exist — `outcomes[0].price`, `outcomes[0].totalVolumeYes`,
`outcomes[1].price`, `outcomes[1].totalVolumeNo`. -/
def UsedFieldsParse (m : RawMarket) : Prop :=
  (parseFloat m.volume).isSome = true ∧
  (∀ o, m.outcomes[0]? = some o →
    (parseFloat o.price).isSome = true ∧
    (parseFloat o.totalVolumeYes).isSome = true) ∧
  (∀ o, m.outcomes[1]? = some o →
    (parseFloat o.price).isSome = true ∧
    (parseFloat o.totalVolumeNo).isSome = true) ∧
  (parseInt m.endDate).isSome = true

instance (m : RawMarket) : Decidable (UsedFieldsParse m) := by
  unfold UsedFieldsParse; infer_instance

/-- State-passing embedding of the comprehension body: the record is
received by reference and returned as left after the row is built. The
source (line 50-60) only reads fields of `m`, so the record is returned
as received. -/
def buildRow_st (m : RawMarket) : RawMarket × Except PyError BaseRow :=
  (m, buildRow m)

/-- State-passing embedding of the comprehension (line 49-62): threads
the list of records through the per-record step, collecting rows. -/
def buildRows_st : List RawMarket → List RawMarket × Except PyError (List BaseRow)
  | [] => ([], Except.ok [])
  | m :: ms =>
    let step := buildRow_st m
    let rest := buildRows_st ms
    (step.1 :: rest.1,
      match step.2 with
      | Except.error e => Except.error e
      | Except.ok b =>
        match rest.2 with
        | Except.error e => Except.error e
        | Except.ok bs => Except.ok (b :: bs))

/-- State-passing embedding of `process_data` (line 48-67): returns the
argument list as it stands after the call, together with the result. -/
def process_data_st (now : ℤ) (markets : List RawMarket) :
    List RawMarket × Except PyError (List AnalyticRow) :=
  let run := buildRows_st markets
  (run.1,
    match run.2 with
    | Except.error e => Except.error e
    | Except.ok base =>
      if base.isEmpty then Except.error (PyError.keyError "yes_volume")
      else Except.ok (base.map (addDerived now)))

/-- The raw record of the spec example in section 8 (its `question`
field, not shown in the example, is set to a placeholder, and the two
outcome fields the code never reads are set to "0"). -/
def exampleRecord : RawMarket :=
  { id := "m1", question := "q", category := "Crypto", volume := "1000.5"
    outcomes := [{ price := "0.6", totalVolumeYes := "600", totalVolumeNo := "0" },
                 { price := "0.4", totalVolumeYes := "0", totalVolumeNo := "400" }]
    endDate := "1700000000" }

/-- The base row the Shaper builds for `exampleRecord`
(1700000000 epoch seconds is day 19675 at 22:13:20). -/
def exampleBaseRow : BaseRow :=
  { id := "m1", question := "q", category := "Crypto"
    volume := mkRat 2001 2, yes_price := mkRat 3 5, no_price := mkRat 2 5
    yes_volume := 600, no_volume := 400
    end_date := { days := 19675, hour := 22, minute := 13, second := 20 } }

/-- The output row of the spec example in section 8, for a refresh at
exactly the market end time: volume 1000.5, yes price 0.6, no price 0.4,
yes volume 600, no volume 400, total volume 1000. -/
def exampleAnalyticRow : AnalyticRow :=
  { id := "m1", question := "q", category := "Crypto"
    volume := mkRat 2001 2, yes_price := mkRat 3 5, no_price := mkRat 2 5
    yes_volume := 600, no_volume := 400
    end_date := { days := 19675, hour := 22, minute := 13, second := 20 }
    total_volume := 1000, days_to_end := 0 }

/-- A record for an already-ended market (end timestamp 100). -/
def pastRecord : RawMarket :=
  { id := "m2", question := "q2", category := "Politics", volume := "5"
    outcomes := [{ price := "0.5", totalVolumeYes := "3", totalVolumeNo := "0" },
                 { price := "0.5", totalVolumeYes := "0", totalVolumeNo := "2" }]
    endDate := "100" }

/-- The analytic row the Shaper derives from `pastRecord` for a refresh
at epoch second 1000000: the market ended 999900 seconds earlier, so
`days_to_end` is negative. -/
def pastAnalyticRow : AnalyticRow :=
  { id := "m2", question := "q2", category := "Politics"
    volume := mkRat 5 1, yes_price := mkRat 1 2, no_price := mkRat 1 2
    yes_volume := mkRat 3 1, no_volume := mkRat 2 1
    end_date := { days := 0, hour := 0, minute := 1, second := 40 }
    total_volume := 5, days_to_end := -12 }

/-- A record whose `volume` string is not a number. -/
def badNumericRecord : RawMarket :=
  { id := "m3", question := "q3", category := "Other", volume := "oops"
    outcomes := [{ price := "0.1", totalVolumeYes := "1", totalVolumeNo := "0" },
                 { price := "0.9", totalVolumeYes := "0", totalVolumeNo := "9" }]
    endDate := "0" }

/-- A record with fewer than two outcome entries. -/
def shortOutcomesRecord : RawMarket :=
  { id := "m4", question := "q4", category := "Sports", volume := "1"
    outcomes := [], endDate := "0" }

deriving instance DecidableEq for Except

theorem pyFloat_ok_iff (s : String) (q : ℚ) :
    pyFloat s = Except.ok q ↔ parseFloat s = some q := by
  unfold pyFloat
  cases parseFloat s <;> simp

theorem pyFloat_error_iff (s : String) (e : PyError) :
    pyFloat s = Except.error e ↔ parseFloat s = none ∧ e = PyError.valueError s := by
  unfold pyFloat
  cases parseFloat s <;> simp
  exact eq_comm

theorem pyInt_ok_iff (s : String) (n : ℤ) :
    pyInt s = Except.ok n ↔ parseInt s = some n := by
  unfold pyInt
  cases parseInt s <;> simp

theorem pyIndex_ok_iff (xs : List Outcome) (i : Nat) (o : Outcome) :
    pyIndex xs i = Except.ok o ↔ xs[i]? = some o := by
  unfold pyIndex
  cases xs[i]? <;> simp

theorem pyIndex_error_iff (xs : List Outcome) (i : Nat) (e : PyError) :
    pyIndex xs i = Except.error e ↔ xs[i]? = none ∧ e = PyError.indexError := by
  unfold pyIndex
  cases xs[i]? <;> simp
  exact eq_comm

theorem timestamp_fromtimestamp (n : ℤ) :
    timestamp (datetime_fromtimestamp n) = n := by
  simp only [timestamp, datetime_fromtimestamp]
  omega

theorem buildRows_st_spec (ms : List RawMarket) :
    buildRows_st ms = (ms, buildRows ms) := by
  induction ms with
  | nil => rfl
  | cons m tail ih =>
    simp only [buildRows_st, buildRow_st, ih, buildRows]

/-- Claim C9: applied to the empty list of raw records, `process_data`
raises the `KeyError` for the `yes_volume` column read on line 64 while
deriving `total_volume`, instead of returning an empty table. -/
theorem process_data_empty_raises_keyerror (now : ℤ) :
    process_data now [] = Except.error (PyError.keyError "yes_volume") := rfl

/-- Claim C3: the Fetcher omits the `category` key from the request
variables exactly for the sentinel string All, and for any other
(non-empty) category string binds the key to exactly that string. -/
theorem fetch_variables_category_filter (c : String) (hne : c ≠ "")
    (hA : c ≠ "All") :
    fetch_polymarket_data_variables (some "All") = [] ∧
    (∀ v, ("category", v) ∉ fetch_polymarket_data_variables (some "All")) ∧
    fetch_polymarket_data_variables (some c) = [("category", some c)] := by
  refine ⟨rfl, by simp [fetch_polymarket_data_variables], ?_⟩
  simp [fetch_polymarket_data_variables, hA]

theorem fetch_variables_category_filter_witness :
    ("Crypto" : String) ≠ "" ∧ ("Crypto" : String) ≠ "All" ∧
    (fetch_polymarket_data_variables (some "All") = [] ∧
      (∀ v, ("category", v) ∉ fetch_polymarket_data_variables (some "All")) ∧
      fetch_polymarket_data_variables (some "Crypto") =
        [("category", some "Crypto")]) :=
  ⟨by decide, by decide,
    fetch_variables_category_filter "Crypto" (by decide) (by decide)⟩

/-- Claim C10: with the category parameter left at its default `None`,
which differs from the sentinel All, the request variables bind the
`category` key to the null value instead of omitting it; omission
happens exactly for the string All. -/
theorem fetch_variables_default_none :
    fetch_polymarket_data_variables none = [("category", none)] ∧
    ∀ c, fetch_polymarket_data_variables c = [] ↔ c = some "All" := by
  refine ⟨rfl, ?_⟩
  intro c
  by_cases h : c = some "All" <;> simp [fetch_polymarket_data_variables, h]

/-- Claim C6: with an empty selected-category list, `main` emits exactly
the one warning of line 100 and performs no Fetcher call, whatever the
chosen category view, auto-refresh flag and number of loop iterations. -/
theorem main_empty_selection_warns_no_fetch (category : String)
    (auto_refresh : Bool) (fuel : Nat) :
    main_effects [] category auto_refresh fuel =
      [Effect.warning "Please select at least one category."] ∧
    (main_effects [] category auto_refresh fuel).countP Effect.isFetch = 0 ∧
    (main_effects [] category auto_refresh fuel).countP Effect.isWarning = 1 := by
  refine ⟨rfl, ?_, ?_⟩ <;> rfl

/-- Claim C8: the state-passing embedding of `process_data` returns its
argument list unchanged — the Shaper only reads the records, builds its
rows from fresh values, and has no other effect — and its result agrees
with the pure embedding. -/
theorem process_data_no_mutation (now : ℤ) (markets : List RawMarket) :
    (process_data_st now markets).1 = markets ∧
    (process_data_st now markets).2 = process_data now markets := by
  unfold process_data_st process_data
  rw [buildRows_st_spec]
  exact ⟨rfl, rfl⟩

theorem buildRow_parses (m : RawMarket) (o0 o1 : Outcome) (rest : List Outcome)
    (v p0 p1 vy vn : ℚ) (e : ℤ)
    (ho : m.outcomes = o0 :: o1 :: rest)
    (hv : parseFloat m.volume = some v)
    (hp0 : parseFloat o0.price = some p0)
    (hp1 : parseFloat o1.price = some p1)
    (hy : parseFloat o0.totalVolumeYes = some vy)
    (hn : parseFloat o1.totalVolumeNo = some vn)
    (he : parseInt m.endDate = some e) :
    buildRow m = Except.ok
      { id := m.id, question := m.question, category := m.category
        volume := v, yes_price := p0, no_price := p1
        yes_volume := vy, no_volume := vn
        end_date := datetime_fromtimestamp e } := by
  simp [buildRow, pyFloat, pyIndex, pyInt, ho, hv, hp0, hp1, hy, hn, he]

theorem buildRow_ok_inv (m : RawMarket) (b : BaseRow)
    (hb : buildRow m = Except.ok b) :
    ∃ o0 o1 e, m.outcomes[0]? = some o0 ∧ m.outcomes[1]? = some o1 ∧
      parseFloat m.volume = some b.volume ∧
      parseFloat o0.price = some b.yes_price ∧
      parseFloat o1.price = some b.no_price ∧
      parseFloat o0.totalVolumeYes = some b.yes_volume ∧
      parseFloat o1.totalVolumeNo = some b.no_volume ∧
      parseInt m.endDate = some e ∧
      b.end_date = datetime_fromtimestamp e ∧
      b.id = m.id ∧ b.question = m.question ∧ b.category = m.category := by
  unfold buildRow at hb
  cases h1 : pyFloat m.volume <;> rw [h1] at hb
  · exact absurd hb (by simp)
  rename_i v
  cases h2 : pyIndex m.outcomes 0 <;> rw [h2] at hb
  · exact absurd hb (by simp)
  rename_i o0
  simp only [] at hb
  cases h3 : pyFloat o0.price <;> rw [h3] at hb
  · exact absurd hb (by simp)
  rename_i p0
  cases h4 : pyIndex m.outcomes 1 <;> rw [h4] at hb
  · exact absurd hb (by simp)
  rename_i o1
  simp only [] at hb
  cases h5 : pyFloat o1.price <;> rw [h5] at hb
  · exact absurd hb (by simp)
  rename_i p1
  simp only [] at hb
  cases h6 : pyFloat o0.totalVolumeYes <;> rw [h6] at hb
  · exact absurd hb (by simp)
  rename_i vy
  simp only [] at hb
  cases h7 : pyFloat o1.totalVolumeNo <;> rw [h7] at hb
  · exact absurd hb (by simp)
  rename_i vn
  simp only [] at hb
  cases h8 : pyInt m.endDate <;> rw [h8] at hb
  · exact absurd hb (by simp)
  rename_i e
  simp only [] at hb
  injection hb with hb
  subst hb
  exact ⟨o0, o1, e, (pyIndex_ok_iff _ _ _).mp h2, (pyIndex_ok_iff _ _ _).mp h4,
    (pyFloat_ok_iff _ _).mp h1, (pyFloat_ok_iff _ _).mp h3,
    (pyFloat_ok_iff _ _).mp h5, (pyFloat_ok_iff _ _).mp h6,
    (pyFloat_ok_iff _ _).mp h7, (pyInt_ok_iff _ _).mp h8,
    rfl, rfl, rfl, rfl⟩

theorem process_data_ok_inv (now : ℤ) (markets : List RawMarket)
    (rows : List AnalyticRow) (h : process_data now markets = Except.ok rows) :
    ∃ base, buildRows markets = Except.ok base ∧ base.isEmpty = false ∧
      rows = base.map (addDerived now) := by
  unfold process_data at h
  cases hB : buildRows markets <;> rw [hB] at h
  · exact absurd h (by simp)
  rename_i base
  simp only [] at h
  cases hE : base.isEmpty
  · rw [hE] at h
    simp at h
    exact ⟨base, rfl, hE, h.symm⟩
  · rw [hE] at h
    simp at h

/-- Claim C5: for a record whose end timestamp string parses to the
integer `e`, the produced row's `end_date` is the calendar conversion
`datetime_fromtimestamp e`, converting it back with `timestamp` yields
exactly `e`, and the derived-column step copies `end_date` unchanged
into the analytic row. -/
theorem end_date_roundtrip (now : ℤ) (m : RawMarket) (b : BaseRow) (e : ℤ)
    (he : parseInt m.endDate = some e) (hb : buildRow m = Except.ok b) :
    b.end_date = datetime_fromtimestamp e ∧
    timestamp b.end_date = e ∧
    (addDerived now b).end_date = b.end_date := by
  obtain ⟨o0, o1, e2, h0, h1, hv, hp0, hp1, hy, hn, he2, hed, hid, hq, hc⟩ :=
    buildRow_ok_inv m b hb
  rw [he] at he2
  injection he2 with he2
  subst he2
  exact ⟨hed, by rw [hed, timestamp_fromtimestamp], rfl⟩

theorem end_date_roundtrip_witness :
    exampleBaseRow.end_date = datetime_fromtimestamp 1700000000 ∧
    timestamp exampleBaseRow.end_date = 1700000000 ∧
    (addDerived 0 exampleBaseRow).end_date = exampleBaseRow.end_date :=
  end_date_roundtrip 0 exampleRecord exampleBaseRow 1700000000
    (by decide) (by decide)

/-- Claim C4: for every row the Shaper produces at a fixed `now`,
`days_to_end` satisfies the floor characterisation of the whole-day
difference — `d * 86400 ≤ end - now < (d + 1) * 86400` — is determined
by `end_date` and `now` alone, and is negative whenever the end date
precedes `now`. -/
theorem days_to_end_floor_spec (now : ℤ) (markets : List RawMarket)
    (rows : List AnalyticRow)
    (hrows : process_data now markets = Except.ok rows) :
    ∀ r ∈ rows,
      r.days_to_end * 86400 ≤ timestamp r.end_date - now ∧
      timestamp r.end_date - now < (r.days_to_end + 1) * 86400 ∧
      (∀ r2 ∈ rows, r2.end_date = r.end_date →
        r2.days_to_end = r.days_to_end) ∧
      (timestamp r.end_date < now → r.days_to_end < 0) := by
  obtain ⟨base, hB, hE, hmap⟩ := process_data_ok_inv now markets rows hrows
  subst hmap
  intro r hr
  rw [List.mem_map] at hr
  obtain ⟨b, hb, hr⟩ := hr
  subst hr
  refine ⟨?_, ?_, ?_, ?_⟩
  · simp only [addDerived]
    omega
  · simp only [addDerived]
    omega
  · intro r2 hr2 hEq
    rw [List.mem_map] at hr2
    obtain ⟨b2, hb2, hr2⟩ := hr2
    subst hr2
    simp only [addDerived] at hEq ⊢
    rw [hEq]
  · intro hlt
    simp only [addDerived] at hlt ⊢
    omega

theorem days_to_end_floor_spec_witness :
    pastAnalyticRow.days_to_end * 86400 ≤
        timestamp pastAnalyticRow.end_date - 1000000 ∧
    timestamp pastAnalyticRow.end_date - 1000000 <
        (pastAnalyticRow.days_to_end + 1) * 86400 ∧
    pastAnalyticRow.days_to_end < 0 := by
  have hb := buildRow_parses pastRecord
    { price := "0.5", totalVolumeYes := "3", totalVolumeNo := "0" }
    { price := "0.5", totalVolumeYes := "0", totalVolumeNo := "2" } []
    (mkRat 5 1) (mkRat 1 2) (mkRat 1 2) (mkRat 3 1) (mkRat 2 1) 100
    rfl (by decide) (by decide) (by decide) (by decide) (by decide) (by decide)
  have hsum : (mkRat 3 1 : ℚ) + mkRat 2 1 = 5 := by
    norm_num [Rat.mkRat_one]
  have hrows : process_data 1000000 [pastRecord] =
      Except.ok [pastAnalyticRow] := by
    simp [process_data, buildRows, hb, addDerived, pastAnalyticRow, hsum,
      timestamp, datetime_fromtimestamp]
    exact ⟨rfl, rfl, rfl, by norm_num⟩
  have h := days_to_end_floor_spec 1000000 [pastRecord] [pastAnalyticRow]
    hrows pastAnalyticRow (by simp)
  exact ⟨h.1, h.2.1, h.2.2.2 (by decide)⟩

/-- Claim C2: for a well-formed record the Shaper sources `yes_price`
from the price of outcome entry 0, `no_price` from the price of entry 1,
`yes_volume` from `totalVolumeYes` of entry 0 and `no_volume` from
`totalVolumeNo` of entry 1, and produces exactly the row built from
those values (the spec example record maps to the example output row,
instantiated in the witness). -/
theorem process_data_field_sourcing (now : ℤ) (m : RawMarket)
    (o0 o1 : Outcome) (rest : List Outcome) (v p0 p1 vy vn : ℚ) (e : ℤ)
    (ho : m.outcomes = o0 :: o1 :: rest)
    (hv : parseFloat m.volume = some v)
    (hp0 : parseFloat o0.price = some p0)
    (hp1 : parseFloat o1.price = some p1)
    (hy : parseFloat o0.totalVolumeYes = some vy)
    (hn : parseFloat o1.totalVolumeNo = some vn)
    (he : parseInt m.endDate = some e) :
    process_data now [m] = Except.ok
      [{ id := m.id, question := m.question, category := m.category
         volume := v, yes_price := p0, no_price := p1
         yes_volume := vy, no_volume := vn
         end_date := datetime_fromtimestamp e
         total_volume := vy + vn
         days_to_end :=
           (timestamp (datetime_fromtimestamp e) - now) / 86400 }] := by
  have hrow := buildRow_parses m o0 o1 rest v p0 p1 vy vn e ho hv hp0 hp1 hy hn he
  simp [process_data, buildRows, hrow, addDerived]

theorem process_data_field_sourcing_witness :
    process_data 1700000000 [exampleRecord] =
      Except.ok [exampleAnalyticRow] := by
  have h := process_data_field_sourcing 1700000000 exampleRecord
    { price := "0.6", totalVolumeYes := "600", totalVolumeNo := "0" }
    { price := "0.4", totalVolumeYes := "0", totalVolumeNo := "400" } []
    (mkRat 2001 2) (mkRat 3 5) (mkRat 2 5) (mkRat 600 1) (mkRat 400 1)
    1700000000 rfl (by decide) (by decide) (by decide) (by decide)
    (by decide) (by decide)
  have hsum : (mkRat 600 1 : ℚ) + mkRat 400 1 = 1000 := by
    norm_num [Rat.mkRat_one]
  rw [h, hsum]
  rfl

theorem buildRow_ok_of_wellFormed (m : RawMarket) (h : WellFormed m) :
    ∃ b, buildRow m = Except.ok b := by
  obtain ⟨hlen, hv, hout, he⟩ := h
  obtain ⟨o0, o1, ho⟩ := List.length_eq_two.mp hlen
  simp only [Option.isSome_iff_exists] at hv he
  obtain ⟨v, hv⟩ := hv
  obtain ⟨e, he⟩ := he
  have h0 := hout o0 (by rw [ho]; exact List.mem_cons_self _ _)
  have h1 := hout o1 (by rw [ho]; simp)
  simp only [Option.isSome_iff_exists] at h0 h1
  obtain ⟨⟨p0, hp0⟩, ⟨vy, hy⟩, h0n⟩ := h0
  obtain ⟨⟨p1, hp1⟩, h1y, ⟨vn, hn⟩⟩ := h1
  exact ⟨_, buildRow_parses m o0 o1 [] v p0 p1 vy vn e ho hv hp0 hp1 hy hn he⟩

theorem buildRows_all_ok (ms : List RawMarket)
    (h : ∀ m ∈ ms, ∃ b, buildRow m = Except.ok b) :
    ∃ bs, buildRows ms = Except.ok bs ∧
      List.Forall₂ (fun m b => buildRow m = Except.ok b) ms bs := by
  induction ms with
  | nil => exact ⟨[], rfl, List.Forall₂.nil⟩
  | cons m tail ih =>
    obtain ⟨b, hb⟩ := h m (List.mem_cons_self _ _)
    obtain ⟨bs, hbs, hf⟩ := ih (fun x hx => h x (List.mem_cons_of_mem _ hx))
    refine ⟨b :: bs, ?_, List.Forall₂.cons hb hf⟩
    simp [buildRows, hb, hbs]

theorem buildRows_ok_mem (ms : List RawMarket) (bs : List BaseRow)
    (h : buildRows ms = Except.ok bs) :
    ∀ m ∈ ms, ∃ b, buildRow m = Except.ok b := by
  induction ms generalizing bs with
  | nil => intro m hm; cases hm
  | cons m0 tail ih =>
    intro m hm
    unfold buildRows at h
    cases hb : buildRow m0 <;> rw [hb] at h
    · exact absurd h (by simp)
    rename_i b0
    simp only [] at h
    cases hbs : buildRows tail <;> rw [hbs] at h
    · exact absurd h (by simp)
    rename_i bs0
    cases List.mem_cons.mp hm with
    | inl hm0 => exact hm0 ▸ ⟨b0, hb⟩
    | inr htail => exact ih bs0 hbs m htail

/-- Claim C1 (amended to nonempty inputs; see counterexample
`process_data_empty_input_no_table` for the empty list): for a nonempty
input list of well-formed records, `process_data` returns exactly one
analytic row per input record, paired in input order, and in every
produced row `total_volume = yes_volume + no_volume`. -/
theorem process_data_one_row_per_record (now : ℤ)
    (markets : List RawMarket) (hne : markets ≠ [])
    (hwf : ∀ m ∈ markets, WellFormed m) :
    ∃ rows, process_data now markets = Except.ok rows ∧
      rows.length = markets.length ∧
      List.Forall₂
        (fun m r => ∃ b, buildRow m = Except.ok b ∧ r = addDerived now b)
        markets rows ∧
      ∀ r ∈ rows, r.total_volume = r.yes_volume + r.no_volume := by
  obtain ⟨bs, hbs, hf⟩ :=
    buildRows_all_ok markets (fun m hm => buildRow_ok_of_wellFormed m (hwf m hm))
  have hlen := hf.length_eq
  have hbne : bs.isEmpty = false := by
    cases bs with
    | nil =>
      cases markets with
      | nil => exact absurd rfl hne
      | cons _ _ => cases hlen
    | cons _ _ => rfl
  refine ⟨bs.map (addDerived now), ?_, ?_, ?_, ?_⟩
  · unfold process_data
    rw [hbs]
    simp [hbne]
  · rw [List.length_map, hlen]
  · rw [List.forall₂_map_right_iff]
    exact hf.imp (fun a b hab => ⟨b, hab, rfl⟩)
  · intro r hr
    rw [List.mem_map] at hr
    obtain ⟨b, hb, hr⟩ := hr
    subst hr
    rfl

theorem process_data_one_row_per_record_witness :
    ∃ rows, process_data 1700000000 [exampleRecord] = Except.ok rows ∧
      rows.length = [exampleRecord].length ∧
      List.Forall₂
        (fun m r =>
          ∃ b, buildRow m = Except.ok b ∧ r = addDerived 1700000000 b)
        [exampleRecord] rows ∧
      ∀ r ∈ rows, r.total_volume = r.yes_volume + r.no_volume :=
  process_data_one_row_per_record 1700000000 [exampleRecord]
    (by decide) (by decide)

/-- Counterexample to claim C1 as stated: on the empty input list — in
which every record vacuously has two outcome entries and parseable
fields — the Shaper returns no row list at all (it raises the KeyError
of line 64), instead of a zero-row table. -/
theorem process_data_empty_input_no_table :
    ¬ ∃ rows, process_data 0 [] = Except.ok rows := by
  intro h
  obtain ⟨rows, h⟩ := h
  exact absurd h (by simp [process_data, buildRows])

theorem buildRow_ok_of_usedParse (m : RawMarket)
    (hlen : 2 ≤ m.outcomes.length) (hp : UsedFieldsParse m) :
    ∃ b, buildRow m = Except.ok b := by
  obtain ⟨hv, h0, h1, he⟩ := hp
  cases hoc : m.outcomes with
  | nil => rw [hoc] at hlen; exact absurd hlen (by simp)
  | cons o0 tail =>
    cases tail with
    | nil => rw [hoc] at hlen; exact absurd hlen (by simp)
    | cons o1 rest =>
      have g0 : m.outcomes[0]? = some o0 := by rw [hoc]; simp
      have g1 : m.outcomes[1]? = some o1 := by rw [hoc]; simp
      obtain ⟨hp0, hy⟩ := h0 o0 g0
      obtain ⟨hp1, hn⟩ := h1 o1 g1
      simp only [Option.isSome_iff_exists] at hv he hp0 hy hp1 hn
      obtain ⟨v, hv⟩ := hv
      obtain ⟨e, he⟩ := he
      obtain ⟨p0, hp0⟩ := hp0
      obtain ⟨vy, hy⟩ := hy
      obtain ⟨p1, hp1⟩ := hp1
      obtain ⟨vn, hn⟩ := hn
      exact ⟨_, buildRow_parses m o0 o1 rest v p0 p1 vy vn e hoc hv hp0
        hp1 hy hn he⟩

theorem buildRow_valueError_of_unparseable (m : RawMarket)
    (hlen : 2 ≤ m.outcomes.length) (hup : ¬ UsedFieldsParse m) :
    ∃ s, buildRow m = Except.error (PyError.valueError s) := by
  cases hoc : m.outcomes with
  | nil => rw [hoc] at hlen; exact absurd hlen (by simp)
  | cons o0 tail =>
    cases tail with
    | nil => rw [hoc] at hlen; exact absurd hlen (by simp)
    | cons o1 rest =>
      have g0 : m.outcomes[0]? = some o0 := by rw [hoc]; simp
      have g1 : m.outcomes[1]? = some o1 := by rw [hoc]; simp
      cases hv : parseFloat m.volume with
      | none => exact ⟨m.volume, by simp [buildRow, pyFloat, hv]⟩
      | some v =>
        cases hp0 : parseFloat o0.price with
        | none =>
          exact ⟨o0.price, by simp [buildRow, pyFloat, pyIndex, hoc, hv, hp0]⟩
        | some p0 =>
          cases hp1 : parseFloat o1.price with
          | none =>
            exact ⟨o1.price,
              by simp [buildRow, pyFloat, pyIndex, hoc, hv, hp0, hp1]⟩
          | some p1 =>
            cases hy : parseFloat o0.totalVolumeYes with
            | none =>
              exact ⟨o0.totalVolumeYes,
                by simp [buildRow, pyFloat, pyIndex, hoc, hv, hp0, hp1, hy]⟩
            | some vy =>
              cases hn : parseFloat o1.totalVolumeNo with
              | none =>
                exact ⟨o1.totalVolumeNo,
                  by simp [buildRow, pyFloat, pyIndex, hoc, hv, hp0, hp1,
                    hy, hn]⟩
              | some vn =>
                cases he : parseInt m.endDate with
                | none =>
                  exact ⟨m.endDate,
                    by simp [buildRow, pyFloat, pyInt, pyIndex, hoc, hv,
                      hp0, hp1, hy, hn, he]⟩
                | some e =>
                  refine absurd ?_ hup
                  refine ⟨by simp [hv], ?_, ?_, by simp [he]⟩
                  · intro o hoeq
                    rw [g0] at hoeq
                    injection hoeq with hoeq
                    subst hoeq
                    exact ⟨by simp [hp0], by simp [hy]⟩
                  · intro o hoeq
                    rw [g1] at hoeq
                    injection hoeq with hoeq
                    subst hoeq
                    exact ⟨by simp [hp1], by simp [hn]⟩

theorem buildRow_indexError_of_short (m : RawMarket)
    (hp : UsedFieldsParse m) (hlen : m.outcomes.length < 2) :
    buildRow m = Except.error PyError.indexError := by
  obtain ⟨hv, h0, h1, he⟩ := hp
  simp only [Option.isSome_iff_exists] at hv
  obtain ⟨v, hv⟩ := hv
  cases hoc : m.outcomes with
  | nil => simp [buildRow, pyFloat, pyIndex, hv, hoc]
  | cons o0 tail =>
    cases tail with
    | nil =>
      have g0 : m.outcomes[0]? = some o0 := by rw [hoc]; simp
      obtain ⟨hp0, hy⟩ := h0 o0 g0
      simp only [Option.isSome_iff_exists] at hp0
      obtain ⟨p0, hp0⟩ := hp0
      simp [buildRow, pyFloat, pyIndex, hv, hoc, hp0]
    | cons o1 rest =>
      rw [hoc] at hlen
      simp only [List.length_cons] at hlen
      omega

theorem buildRows_classify (P : PyError → Prop) (ms : List RawMarket)
    (h : ∀ m ∈ ms, (∃ b, buildRow m = Except.ok b) ∨
      (∃ e, buildRow m = Except.error e ∧ P e)) :
    (∃ bs, buildRows ms = Except.ok bs) ∨
      (∃ e, buildRows ms = Except.error e ∧ P e) := by
  induction ms with
  | nil => exact Or.inl ⟨[], rfl⟩
  | cons m tail ih =>
    cases h m (List.mem_cons_self _ _) with
    | inr herr =>
      obtain ⟨e, he, hPe⟩ := herr
      exact Or.inr ⟨e, by simp [buildRows, he], hPe⟩
    | inl hok =>
      obtain ⟨b, hb⟩ := hok
      cases ih (fun x hx => h x (List.mem_cons_of_mem _ hx)) with
      | inl htail =>
        obtain ⟨bs, hbs⟩ := htail
        exact Or.inl ⟨b :: bs, by simp [buildRows, hb, hbs]⟩
      | inr htail =>
        obtain ⟨e, he, hPe⟩ := htail
        exact Or.inr ⟨e, by simp [buildRows, hb, he], hPe⟩

/-- Claim C7: if every record has at least two outcome entries and some
record has an unparseable used numeric field, the Shaper raises a
`ValueError`; if every used numeric field parses and some record has
fewer than two outcome entries, it raises an `IndexError`; in both
cases the failure propagates (no row list is returned). -/
theorem process_data_failure_modes (now : ℤ) (markets : List RawMarket) :
    ((∀ m ∈ markets, 2 ≤ m.outcomes.length) →
      (∃ m ∈ markets, ¬ UsedFieldsParse m) →
      (∃ s, process_data now markets =
        Except.error (PyError.valueError s)) ∧
      ∀ rows, process_data now markets ≠ Except.ok rows) ∧
    ((∀ m ∈ markets, UsedFieldsParse m) →
      (∃ m ∈ markets, m.outcomes.length < 2) →
      process_data now markets = Except.error PyError.indexError ∧
      ∀ rows, process_data now markets ≠ Except.ok rows) := by
  constructor
  · intro hlen hbad
    have hcls : ∀ m ∈ markets, (∃ b, buildRow m = Except.ok b) ∨
        (∃ e, buildRow m = Except.error e ∧
          ∃ s, e = PyError.valueError s) := by
      intro m hm
      by_cases hu : UsedFieldsParse m
      · exact Or.inl (buildRow_ok_of_usedParse m (hlen m hm) hu)
      · obtain ⟨s, hs⟩ := buildRow_valueError_of_unparseable m (hlen m hm) hu
        exact Or.inr ⟨_, hs, s, rfl⟩
    cases buildRows_classify (fun e => ∃ s, e = PyError.valueError s)
        markets hcls with
    | inl hok =>
      obtain ⟨bs, hbs⟩ := hok
      obtain ⟨mb, hmb, hub⟩ := hbad
      obtain ⟨b, hb⟩ := buildRows_ok_mem markets bs hbs mb hmb
      obtain ⟨s, hs⟩ := buildRow_valueError_of_unparseable mb (hlen mb hmb) hub
      rw [hb] at hs
      exact absurd hs (by simp)
    | inr herr =>
      obtain ⟨e, he, s, hes⟩ := herr
      subst hes
      constructor
      · exact ⟨s, by unfold process_data; rw [he]⟩
      · intro rows hok
        unfold process_data at hok
        rw [he] at hok
        exact absurd hok (by simp)
  · intro hp hshort
    have hcls : ∀ m ∈ markets, (∃ b, buildRow m = Except.ok b) ∨
        (∃ e, buildRow m = Except.error e ∧ e = PyError.indexError) := by
      intro m hm
      by_cases hl : m.outcomes.length < 2
      · exact Or.inr ⟨_, buildRow_indexError_of_short m (hp m hm) hl, rfl⟩
      · exact Or.inl (buildRow_ok_of_usedParse m (by omega) (hp m hm))
    cases buildRows_classify (fun e => e = PyError.indexError)
        markets hcls with
    | inl hok =>
      obtain ⟨bs, hbs⟩ := hok
      obtain ⟨mb, hmb, hl⟩ := hshort
      obtain ⟨b, hb⟩ := buildRows_ok_mem markets bs hbs mb hmb
      have hs := buildRow_indexError_of_short mb (hp mb hmb) hl
      rw [hb] at hs
      exact absurd hs (by simp)
    | inr herr =>
      obtain ⟨e, he, hes⟩ := herr
      subst hes
      constructor
      · unfold process_data
        rw [he]
      · intro rows hok
        unfold process_data at hok
        rw [he] at hok
        exact absurd hok (by simp)

theorem process_data_failure_modes_witness :
    ((∃ s, process_data 0 [badNumericRecord] =
        Except.error (PyError.valueError s)) ∧
      ∀ rows, process_data 0 [badNumericRecord] ≠ Except.ok rows) ∧
    (process_data 0 [shortOutcomesRecord] =
        Except.error PyError.indexError ∧
      ∀ rows, process_data 0 [shortOutcomesRecord] ≠ Except.ok rows) :=
  ⟨(process_data_failure_modes 0 [badNumericRecord]).1 (by decide)
      ⟨badNumericRecord, by decide, by decide⟩,
    (process_data_failure_modes 0 [shortOutcomesRecord]).2 (by decide)
      ⟨shortOutcomesRecord, by decide, by decide⟩⟩
